import Mathlib

/-!
Verification of the background job scheduler of the `rust` repository
(worker-service, database crates), as a shallow embedding in Lean.

The embedding follows the source:
- `crates/database/src/models.rs` (Job, JobStatus),
- `crates/database/src/repositories.rs` (JobRepository: find_pending,
  update_status, mark_started, mark_completed, mark_failed),
- `crates/worker-service/src/processors/mod.rs` (DefaultProcessor, JobExecutor),
- `crates/worker-service/src/scheduler/mod.rs` (JobScheduler worker / cleanup loops),
- `crates/worker-service/src/config.rs` (WorkerConfig validation, job-type filter),
- `crates/worker-service/src/main.rs` (startup path).

Timestamps are naturals (an abstract clock supplies NOW()); JSON values are a
small concrete inductive covering the shapes the processors build; database
errors (transient store failures) are out of scope, so repository calls are
total functions on an in-memory table modelled as a list of rows.
-/

namespace JobWorker

/-- Model of the serde_json values appearing in the scheduler core: payloads are
opaque, and the built-in processors build two-field objects
such as a status field and a timestamp field. -/
inductive JsonValue where
  | null
  | str (s : String)
  | num (n : Int)
  | obj2 (k1 : String) (v1 : JsonValue) (k2 : String) (v2 : JsonValue)
deriving DecidableEq, Repr

/-- The `shared::AppError` variants produced by the scheduler core
(processors/mod.rs): BadRequest for unknown job types, Internal for the
executor timeout. -/
inductive AppError where
  | badRequest (msg : String)
  | internal (msg : String)
deriving DecidableEq, Repr

/-- The Display strings of `shared/src/errors.rs` (thiserror attributes
"Bad request: {0}" and "Internal server error: {0}"), used by the worker loop
via `e.to_string()`. -/
def AppError.toMessage : AppError → String
  | .badRequest m => "Bad request: " ++ m
  | .internal m => "Internal server error: " ++ m

/-- `JobStatus` from `crates/database/src/models.rs`. -/
inductive JobStatus where
  | pending
  | running
  | completed
  | failed
  | cancelled
deriving DecidableEq, Repr

/-- `Job` from `crates/database/src/models.rs` (i32 counters as Int,
timestamps as Nat). -/
structure Job where
  id : Nat
  tenant_id : Option Nat
  job_type : String
  status : JobStatus
  payload : JsonValue
  result : Option JsonValue
  error : Option String
  retry_count : Int
  max_retries : Int
  scheduled_at : Nat
  started_at : Option Nat
  completed_at : Option Nat
  created_at : Nat
  updated_at : Nat
deriving DecidableEq, Repr

/-- The jobs table: a list of rows. -/
abbrev Store := List Job

/-- The WHERE clause of `JobRepository::find_pending`:
status = 'pending' AND scheduled_at <= NOW(). -/
def eligible (now : Nat) (j : Job) : Bool :=
  j.status = JobStatus.pending && j.scheduled_at ≤ now

/-- ORDER BY created_at ASC, as a relation on rows. -/
def createdLe (a b : Job) : Prop := a.created_at ≤ b.created_at

instance : DecidableRel createdLe := fun a b => Nat.decLe a.created_at b.created_at

instance : IsTotal Job createdLe := ⟨fun a b => Nat.le_total a.created_at b.created_at⟩

instance : IsTrans Job createdLe := ⟨fun _ _ _ h1 h2 => Nat.le_trans h1 h2⟩

/-- `JobRepository::find_pending` (repositories.rs): SELECT rows with
status = 'pending' AND scheduled_at <= NOW(), ORDER BY created_at ASC,
LIMIT `limit`.  A SELECT; it does not modify the table. -/
def find_pending (s : Store) (limit : Nat) (now : Nat) : List Job :=
  (List.insertionSort createdLe (s.filter (eligible now))).take limit

/-- The `find_pending` repository call seen as a state transformer: it returns
the selected rows and the (unchanged) table, making explicit that the SELECT
has no write component. -/
def find_pending_op (s : Store) (limit : Nat) (now : Nat) : List Job × Store :=
  (find_pending s limit now, s)

/-- An UPDATE ... WHERE id = $1: apply `f` to every row whose id matches. -/
def set_job (id : Nat) (f : Job → Job) (s : Store) : Store :=
  s.map fun j => if j.id = id then f j else j

/-- `JobRepository::update_status`: SET status = $2, updated_at = NOW(). -/
def update_status (id : Nat) (st : JobStatus) (now : Nat) (s : Store) : Store :=
  set_job id (fun j => { j with status := st, updated_at := now }) s

/-- The SET clause of `JobRepository::mark_started`:
status = 'running', started_at = NOW(), updated_at = NOW(). -/
def started_update (now : Nat) (j : Job) : Job :=
  { j with status := JobStatus.running, started_at := some now, updated_at := now }

/-- The SET clause of `JobRepository::mark_completed`:
status = 'completed', result = $2, completed_at = NOW(), updated_at = NOW(). -/
def completed_update (result : Option JsonValue) (now : Nat) (j : Job) : Job :=
  { j with status := JobStatus.completed, result := result,
           completed_at := some now, updated_at := now }

/-- The SET clause of `JobRepository::mark_failed`: status = 'failed',
error = $2, retry_count = retry_count + 1, completed_at = NOW(),
updated_at = NOW(). -/
def failed_update (error : String) (now : Nat) (j : Job) : Job :=
  { j with status := JobStatus.failed, error := some error,
           retry_count := j.retry_count + 1,
           completed_at := some now, updated_at := now }

/-- `JobRepository::mark_started`. -/
def mark_started (id : Nat) (now : Nat) (s : Store) : Store :=
  set_job id (started_update now) s

/-- `JobRepository::mark_completed`. -/
def mark_completed (id : Nat) (result : Option JsonValue) (now : Nat) (s : Store) : Store :=
  set_job id (completed_update result now) s

/-- `JobRepository::mark_failed`. -/
def mark_failed (id : Nat) (error : String) (now : Nat) (s : Store) : Store :=
  set_job id (failed_update error now) s

/-- The write operations the worker loop issues against the jobs table. -/
inductive StoreOp where
  | opStarted (id : Nat) (now : Nat)
  | opCompleted (id : Nat) (result : Option JsonValue) (now : Nat)
  | opFailed (id : Nat) (error : String) (now : Nat)
deriving DecidableEq, Repr

/-- The id in the WHERE clause of a write operation. -/
def StoreOp.target : StoreOp → Nat
  | .opStarted i _ => i
  | .opCompleted i _ _ => i
  | .opFailed i _ _ => i

/-- The SET clause of a write operation, on a single row. -/
def StoreOp.update : StoreOp → Job → Job
  | .opStarted _ now, j => started_update now j
  | .opCompleted _ r now, j => completed_update r now j
  | .opFailed _ e now, j => failed_update e now j

/-- A write operation on a single row: update it if its id matches. -/
def StoreOp.onRow (op : StoreOp) (j : Job) : Job :=
  if j.id = op.target then op.update j else j

/-- Execute one write operation against the table. -/
def StoreOp.apply (op : StoreOp) (s : Store) : Store := s.map op.onRow

/-- Execute a sequence of write operations against the table. -/
def apply_ops (s : Store) (ops : List StoreOp) : Store :=
  ops.foldl (fun t op => op.apply t) s

/-- The effect of a sequence of write operations on a single row. -/
def run_ops (ops : List StoreOp) (j : Job) : Job :=
  ops.foldl (fun rec op => op.onRow rec) j

/-! ## Configuration (`crates/worker-service/src/config.rs`) -/

/-- `CronJobConfig` from config.rs. -/
structure CronJobConfig where
  name : String
  cron : String
  job_type : String
  payload : JsonValue
  enabled : Bool
deriving DecidableEq, Repr

/-- `SchedulerSettings` from config.rs. -/
structure SchedulerSettings where
  enable_cron : Bool
  cron_jobs : List CronJobConfig
  cleanup_after_days : Nat
  enable_history : Bool
deriving DecidableEq, Repr

/-- `WorkerSettings` from config.rs (durations in seconds, as in the source). -/
structure WorkerSettings where
  worker_threads : Nat
  poll_interval : Nat
  batch_size : Nat
  job_timeout : Nat
  max_retries : Nat
  retry_delay : Nat
  enable_metrics : Bool
  job_types : List String
  scheduler : SchedulerSettings
deriving DecidableEq, Repr

/-- `SchedulerSettings::default`. -/
def SchedulerSettings.default : SchedulerSettings :=
  { enable_cron := true
    cron_jobs := []
    cleanup_after_days := 30
    enable_history := true }

/-- `WorkerSettings::default` (worker_threads is available_parallelism at
runtime; 4 is its documented fallback). -/
def WorkerSettings.default : WorkerSettings :=
  { worker_threads := 4
    poll_interval := 5
    batch_size := 10
    job_timeout := 300
    max_retries := 3
    retry_delay := 60
    enable_metrics := true
    job_types := ["*"]
    scheduler := SchedulerSettings.default }

/-- `WorkerConfig::should_process_job_type`: the pool handles a job type when
its job_types list contains the wildcard or contains the type itself. -/
def should_process_job_type (w : WorkerSettings) (job_type : String) : Bool :=
  w.job_types.contains "*" || w.job_types.contains job_type

/-- The cron-expression loop of `WorkerConfig::validate`: for each enabled cron
definition, `cron::Schedule::from_str` must succeed.  The external parser is an
oracle `cron_parse` returning the parse error, if any. -/
def validate_cron_jobs (cron_parse : String → Option String) :
    List CronJobConfig → Except String Unit
  | [] => .ok ()
  | c :: rest =>
    if c.enabled then
      match cron_parse c.cron with
      | some e =>
        .error ("Invalid cron expression " ++ "'" ++ c.cron ++ "': " ++ e)
      | none => validate_cron_jobs cron_parse rest
    else validate_cron_jobs cron_parse rest

/-- `WorkerConfig::validate` (config.rs): validate the base app config (its
result is the oracle `app_validate`, external to the scheduler core), then
reject zero worker_threads, batch_size, job_timeout and poll_interval in that
order, then check the enabled cron expressions. -/
def validate (app_validate : Except String Unit) (cron_parse : String → Option String)
    (w : WorkerSettings) : Except String Unit :=
  match app_validate with
  | .error e => .error e
  | .ok () =>
    if w.worker_threads = 0 then .error "Worker threads cannot be zero"
    else if w.batch_size = 0 then .error "Batch size cannot be zero"
    else if w.job_timeout = 0 then .error "Job timeout cannot be zero"
    else if w.poll_interval = 0 then .error "Poll interval cannot be zero"
    else validate_cron_jobs cron_parse w.scheduler.cron_jobs

/-- The startup path of `crates/worker-service/src/main.rs`: load the shared
AppConfig, run `AppConfig::validate` (oracle `app_validate`), then build the
scheduler from `worker_threads` and `job_types` (the remaining WorkerSettings
are defaults) and spawn that many workers.  `WorkerConfig::validate` is not
invoked anywhere on this path; on success the result is the number of worker
loops spawned by `JobScheduler::start`. -/
def main_startup (app_validate : Except String Unit) (worker_threads : Nat)
    (job_types : List String) : Except String Nat :=
  match app_validate with
  | .error e => .error e
  | .ok () => .ok worker_threads

/-! ## Processors and executor (`crates/worker-service/src/processors/mod.rs`) -/

/-- `DefaultProcessor::process`: dispatch on the job type.  The four built-in
handlers only simulate work and always succeed with a two-field JSON object
whose timestamp is the current clock value `now`; any other job type yields
`AppError::BadRequest("Unknown job type: <type>")`. -/
def DefaultProcessor.process (job_type : String) (payload : JsonValue) (now : Nat) :
    Except AppError JsonValue :=
  match job_type with
  | "send_email" =>
    .ok (.obj2 "status" (.str "sent") "timestamp" (.num (Int.ofNat now)))
  | "process_payment" =>
    .ok (.obj2 "status" (.str "processed") "timestamp" (.num (Int.ofNat now)))
  | "generate_report" =>
    .ok (.obj2 "status" (.str "generated") "timestamp" (.num (Int.ofNat now)))
  | "cleanup_data" =>
    .ok (.obj2 "status" (.str "cleaned") "timestamp" (.num (Int.ofNat now)))
  | t => .error (.badRequest ("Unknown job type: " ++ t))

/-- `JobExecutor::execute`: race the processor call against the configured
timeout.  Whether the deadline elapses first is real-time behavior, modelled by
the oracle `timed_out`; on timeout the result is
`Err(AppError::Internal("Job execution timed out"))` and the processor result
is discarded, otherwise the processor result passes through unchanged. -/
def execute (timed_out : Bool) (job_type : String) (payload : JsonValue) (now : Nat) :
    Except AppError JsonValue :=
  if timed_out then .error (.internal "Job execution timed out")
  else DefaultProcessor.process job_type payload now

/-! ## The worker loop (`crates/worker-service/src/scheduler/mod.rs`) -/

/-- The write operations one claimed job gives rise to inside
`JobScheduler::spawn_worker`, computed from the fetched row `job` (the code
reads retry_count / max_retries from the fetched row):
- a job type the pool does not process is skipped without any write;
- otherwise the job is first marked started;
- on Ok the job is marked completed with the result;
- on Err with retry_count < max_retries the code only logs
  "Job failed, will retry" — the retry write is a TODO in the source, so no
  operation is issued;
- on Err with retry_count >= max_retries the job is marked failed with the
  error display string.
The executor outcome is the oracle `exec` applied to the fetched row. -/
def job_ops (w : WorkerSettings) (exec : Job → Except AppError JsonValue)
    (now : Nat) (job : Job) : List StoreOp :=
  if should_process_job_type w job.job_type then
    StoreOp.opStarted job.id now ::
      (match exec job with
       | .ok r => [StoreOp.opCompleted job.id (some r) now]
       | .error e =>
         if job.retry_count < job.max_retries then []
         else [StoreOp.opFailed job.id (AppError.toMessage e) now])
  else []

/-- Processing of a single fetched job by the worker loop: issue its write
operations against the table. -/
def process_job (w : WorkerSettings) (exec : Job → Except AppError JsonValue)
    (now : Nat) (s : Store) (job : Job) : Store :=
  apply_ops s (job_ops w exec now job)

/-- One poll tick of `JobScheduler::spawn_worker`: fetch up to batch_size
pending jobs, then process each fetched row in order. -/
def worker_tick (w : WorkerSettings) (exec : Job → Except AppError JsonValue)
    (now : Nat) (s : Store) : Store :=
  (find_pending s w.batch_size now).foldl (process_job w exec now) s

/-- The write operations one whole poll tick issues, in order. -/
def tick_ops (w : WorkerSettings) (exec : Job → Except AppError JsonValue)
    (now : Nat) (s : Store) : List StoreOp :=
  (find_pending s w.batch_size now).flatMap (job_ops w exec now)

/-- One hourly tick of `JobScheduler::spawn_cleanup_task`: the body only logs
"Running job cleanup task"; the deletion of old jobs is a TODO in the source,
so the tick issues no store operation and the table is unchanged. -/
def cleanup_tick (s : Store) : Store := s

/-! ## Concrete fixtures and invariant definitions used by the theorems -/

/-- A freshly produced job record (Pending, zero retries, eligible from time 0),
as the API layer inserts it. -/
def mkJob (id created : Nat) (t : String) : Job :=
  { id := id
    tenant_id := none
    job_type := t
    status := JobStatus.pending
    payload := JsonValue.null
    result := none
    error := none
    retry_count := 0
    max_retries := 3
    scheduled_at := 0
    started_at := none
    completed_at := none
    created_at := created
    updated_at := created }

/-- The executor outcome of the real model code when the deadline does not
elapse: `JobExecutor::execute` with the default processor. -/
def exec_default (now : Nat) : Job → Except AppError JsonValue :=
  fun j => execute false j.job_type j.payload now

/-- The executor outcome when the deadline elapses first. -/
def exec_timeout (now : Nat) : Job → Except AppError JsonValue :=
  fun j => execute true j.job_type j.payload now

/-- A terminal job far older than any retention window. -/
def old_done_job : Job :=
  { mkJob 1 0 "send_email" with status := JobStatus.completed, completed_at := some 0 }

/-- A WorkerSettings with zero worker threads, which
`WorkerConfig::validate` rejects. -/
def zero_threads_settings : WorkerSettings :=
  { WorkerSettings.default with worker_threads := 0 }

/-- An eligible Pending job created at time i. -/
def batch_job (i : Nat) : Job := mkJob i i "send_email"

/-- Fifteen eligible Pending jobs, created oldest-first at times 1..15. -/
def jobs15 : Store := (List.range 15).map (fun i => batch_job (i + 1))

/-- The ten oldest-created of the fifteen. -/
def first_ten : List Job := (List.range 10).map (fun i => batch_job (i + 1))

/-- The remaining five. -/
def last_five : List Job := (List.range 5).map (fun i => batch_job (i + 11))

/-- The table after the worker has marked the first batch started. -/
def after_first_batch : Store :=
  first_ten.foldl (fun t j => mark_started j.id 100 t) jobs15

/-- A Pending job whose scheduled_at (200) is in the future at time 100. -/
def future_job : Job := { mkJob 1 1 "send_email" with scheduled_at := 200 }

/-- A single eligible Pending job. -/
def pending_one : Job := mkJob 1 1 "send_email"

/-- A claimed job whose executor outcome is a failure while retries remain:
its type is not registered, so the default processor returns BadRequest, and
retry_count 0 is strictly below max_retries 3. -/
def stuck_job : Job := mkJob 1 1 "no_such_type"

/-- The row the worker leaves behind for `stuck_job`: marked started and then
never written again, because the retry branch of `spawn_worker` is a TODO. -/
def stuck_after : Job :=
  { stuck_job with status := JobStatus.running, started_at := some 100, updated_at := 100 }

/-- A claimed job whose processor invocation exceeds the timeout
(retry_count 0 < max_retries 3). -/
def timeout_job : Job := mkJob 1 1 "send_email"

/-- The row the worker leaves behind for `timeout_job`: marked started, then
never written again. -/
def timeout_after : Job :=
  { timeout_job with status := JobStatus.running, started_at := some 100, updated_at := 100 }

/-- The retry-count invariant the code actually maintains: a row that is not
terminally failed has retry_count at most max_retries; marking a job
permanently failed bumps retry_count once, so a failed row has retry_count at
most max_retries + 1. -/
def RetryInv (s : Store) : Prop :=
  ∀ j ∈ s, (j.status = JobStatus.failed → j.retry_count ≤ j.max_retries + 1) ∧
           (j.status ≠ JobStatus.failed → j.retry_count ≤ j.max_retries)

instance (s : Store) : Decidable (RetryInv s) := by
  unfold RetryInv
  infer_instance

/-- A job on its last permitted attempt: retry_count 0 equals max_retries 0,
and its executor outcome is a failure (unknown type). -/
def last_try_job : Job := { mkJob 1 1 "no_such_type" with max_retries := 0 }

/-- The row after the worker tick: `mark_failed` set status failed and
incremented retry_count to 1, one more than max_retries. -/
def last_try_after : Job :=
  { last_try_job with
      status := JobStatus.failed,
      error := some "Bad request: Unknown job type: no_such_type",
      retry_count := 1,
      started_at := some 100,
      completed_at := some 100,
      updated_at := 100 }

/-- The §4.3 state-machine edges of the spec: Pending→Running (claim),
Running→Completed, Running→Pending (retry), Running→Failed, and
Pending/Running→Cancelled. -/
def ok_edge : JobStatus → JobStatus → Bool
  | JobStatus.pending, JobStatus.running => true
  | JobStatus.running, JobStatus.completed => true
  | JobStatus.running, JobStatus.pending => true
  | JobStatus.running, JobStatus.failed => true
  | JobStatus.pending, JobStatus.cancelled => true
  | JobStatus.running, JobStatus.cancelled => true
  | _, _ => false

/-- One write operation respects the state machine on table `s`: every row
either keeps its status or moves along an allowed edge. -/
def op_respects (s : Store) (op : StoreOp) : Bool :=
  s.all fun j =>
    ((op.onRow j).status == j.status) || ok_edge j.status (op.onRow j).status

/-- A sequence of write operations respects the state machine, each operation
judged against the table state it actually executes on. -/
def trace_respects : Store → List StoreOp → Bool
  | _, [] => true
  | s, op :: rest => op_respects s op && trace_respects (op.apply s) rest

/-- Every row of the table that has id `i` currently has status `st`. -/
def ids_status (i : Nat) (st : JobStatus) (s : Store) : Prop :=
  ∀ rec ∈ s, rec.id = i → rec.status = st

/-- The row after a full first worker pass over `pending_one`. -/
def c4_done : Job :=
  { pending_one with
      status := JobStatus.completed,
      result := some (JsonValue.obj2 "status" (JsonValue.str "sent")
        "timestamp" (JsonValue.num 100)),
      started_at := some 100,
      completed_at := some 100,
      updated_at := 100 }

/-- The row after a stale second worker re-marks the completed job started. -/
def c4_rerun : Job := { c4_done with status := JobStatus.running }

/-! ## Algebra of the write operations -/

theorem apply_ops_append (s : Store) (a b : List StoreOp) :
    apply_ops s (a ++ b) = apply_ops (apply_ops s a) b := by
  simp only [apply_ops]
  exact List.foldl_append ..

theorem run_ops_append (j : Job) (a b : List StoreOp) :
    run_ops (a ++ b) j = run_ops b (run_ops a j) := by
  simp only [run_ops]
  exact List.foldl_append ..

theorem apply_ops_eq_map (ops : List StoreOp) : ∀ s : Store,
    apply_ops s ops = s.map (run_ops ops) := by
  induction ops with
  | nil =>
    intro s
    have h : run_ops ([] : List StoreOp) = id := funext fun j => rfl
    rw [h, List.map_id]
    rfl
  | cons op rest ih =>
    intro s
    show apply_ops (op.apply s) rest = _
    rw [ih (op.apply s)]
    simp only [StoreOp.apply, List.map_map]
    rfl

theorem worker_tick_eq (w : WorkerSettings) (exec : Job → Except AppError JsonValue)
    (now : Nat) (s : Store) :
    worker_tick w exec now s = apply_ops s (tick_ops w exec now s) := by
  unfold worker_tick tick_ops
  generalize find_pending s w.batch_size now = L
  induction L generalizing s with
  | nil => simp [apply_ops]
  | cons f L ih =>
    simp only [List.foldl_cons, List.flatMap_cons, apply_ops_append]
    exact ih (process_job w exec now s f)

theorem StoreOp.update_id (op : StoreOp) (j : Job) : (op.update j).id = j.id := by
  cases op <;> rfl

theorem StoreOp.onRow_id (op : StoreOp) (j : Job) : (op.onRow j).id = j.id := by
  unfold StoreOp.onRow
  by_cases h : j.id = op.target
  · simp [h, StoreOp.update_id]
  · simp [h]

theorem run_ops_id (ops : List StoreOp) : ∀ j : Job, (run_ops ops j).id = j.id := by
  induction ops with
  | nil => intro j; rfl
  | cons op rest ih =>
    intro j
    show (run_ops rest (op.onRow j)).id = j.id
    rw [ih (op.onRow j), StoreOp.onRow_id]

theorem onRow_not_target (op : StoreOp) (j : Job) (h : op.target ≠ j.id) :
    op.onRow j = j := by
  unfold StoreOp.onRow
  rw [if_neg]
  intro hj
  exact h hj.symm

theorem run_ops_not_target (ops : List StoreOp) : ∀ j : Job,
    (∀ op ∈ ops, op.target ≠ j.id) → run_ops ops j = j := by
  induction ops with
  | nil => intro j _; rfl
  | cons op rest ih =>
    intro j h
    show run_ops rest (op.onRow j) = j
    rw [onRow_not_target op j (h op (List.mem_cons_self op rest)), ih j]
    intro o ho
    exact h o (List.mem_cons_of_mem _ ho)

theorem job_ops_target (w : WorkerSettings) (exec : Job → Except AppError JsonValue)
    (now : Nat) (f : Job) : ∀ op ∈ job_ops w exec now f, op.target = f.id := by
  intro op hop
  unfold job_ops at hop
  by_cases hp : should_process_job_type w f.job_type
  · simp only [hp, if_true] at hop
    rcases List.mem_cons.1 hop with h | h
    · rw [h]; rfl
    · cases hexec : exec f with
      | ok r =>
        rw [hexec] at h
        simp only [List.mem_singleton] at h
        rw [h]; rfl
      | error e =>
        rw [hexec] at h
        by_cases hr : f.retry_count < f.max_retries
        · simp [hr] at h
        · simp only [hr, if_false, List.mem_singleton] at h
          rw [h]; rfl
  · simp [hp] at hop

/-! ## Facts about `find_pending` -/

theorem mem_find_pending (s : Store) (limit now : Nat) (j : Job)
    (h : j ∈ find_pending s limit now) :
    j ∈ s ∧ j.status = JobStatus.pending ∧ j.scheduled_at ≤ now := by
  unfold find_pending at h
  have h1 : j ∈ List.insertionSort createdLe (s.filter (eligible now)) :=
    List.mem_of_mem_take h
  have h2 : j ∈ s.filter (eligible now) :=
    (List.perm_insertionSort createdLe _).mem_iff.1 h1
  have h3 := List.mem_filter.1 h2
  refine ⟨h3.1, ?_, ?_⟩
  · have := h3.2
    unfold eligible at this
    simp only [Bool.and_eq_true, decide_eq_true_eq] at this
    exact this.1
  · have := h3.2
    unfold eligible at this
    simp only [Bool.and_eq_true, decide_eq_true_eq] at this
    exact this.2

theorem find_pending_length (s : Store) (limit now : Nat) :
    (find_pending s limit now).length ≤ limit := by
  unfold find_pending
  exact (List.length_take ..).trans_le (Nat.min_le_left _ _)

theorem find_pending_sorted (s : Store) (limit now : Nat) :
    (find_pending s limit now).Sorted createdLe := by
  unfold find_pending
  exact (List.sorted_insertionSort createdLe _).sublist (List.take_sublist _ _)

theorem find_pending_nodup_ids (s : Store) (limit now : Nat)
    (h : (s.map Job.id).Nodup) : ((find_pending s limit now).map Job.id).Nodup := by
  unfold find_pending
  have hfil : ((s.filter (eligible now)).map Job.id).Nodup :=
    ((s.filter_sublist (p := eligible now)).map Job.id).nodup h
  have hsort : ((List.insertionSort createdLe (s.filter (eligible now))).map Job.id).Nodup :=
    (((List.perm_insertionSort createdLe _).map Job.id).nodup_iff).2 hfil
  exact ((List.take_sublist _ _).map Job.id).nodup hsort

/-! ## Per-record characterization of one worker tick -/

theorem run_flatMap_not_mem (w : WorkerSettings) (exec : Job → Except AppError JsonValue)
    (now : Nat) (L : List Job) (rec : Job) (h : ∀ f ∈ L, f.id ≠ rec.id) :
    run_ops (L.flatMap (job_ops w exec now)) rec = rec := by
  apply run_ops_not_target
  intro op hop
  rcases List.mem_flatMap.1 hop with ⟨f, hf, hopf⟩
  rw [job_ops_target w exec now f op hopf]
  exact h f hf

theorem run_flatMap_mem (w : WorkerSettings) (exec : Job → Except AppError JsonValue)
    (now : Nat) : ∀ (L : List Job), (L.map Job.id).Nodup → ∀ rec ∈ L,
    run_ops (L.flatMap (job_ops w exec now)) rec = run_ops (job_ops w exec now rec) rec := by
  intro L
  induction L with
  | nil => intro _ rec hrec; cases hrec
  | cons f L2 ih =>
    intro hnd rec hrec
    have hnd2 : (L2.map Job.id).Nodup := (List.nodup_cons.1 hnd).2
    have hfid : f.id ∉ L2.map Job.id := (List.nodup_cons.1 hnd).1
    rw [List.flatMap_cons, run_ops_append]
    rcases List.mem_cons.1 hrec with hcase | hcase
    · subst hcase
      apply run_ops_not_target
      intro op hop
      rcases List.mem_flatMap.1 hop with ⟨f2, hf2, hopf2⟩
      rw [job_ops_target w exec now f2 op hopf2, run_ops_id]
      intro heq
      exact hfid (heq ▸ List.mem_map_of_mem Job.id hf2)
    · have hne : f.id ≠ rec.id := by
        intro heq
        exact hfid (heq ▸ List.mem_map_of_mem Job.id hcase)
      rw [run_ops_not_target (job_ops w exec now f) rec ?_, ih hnd2 rec hcase]
      intro op hop
      rw [job_ops_target w exec now f op hop]
      exact hne

/-- What one worker tick does to a single row of the table, assuming row ids
are unique: a fetched row is transformed by its own operation sequence, every
other row is untouched. -/
theorem tick_record (w : WorkerSettings) (exec : Job → Except AppError JsonValue)
    (now : Nat) (s : Store) (h : (s.map Job.id).Nodup) (rec : Job) (hrec : rec ∈ s) :
    run_ops (tick_ops w exec now s) rec =
      if rec ∈ find_pending s w.batch_size now then run_ops (job_ops w exec now rec) rec
      else rec := by
  by_cases hmem : rec ∈ find_pending s w.batch_size now
  · rw [if_pos hmem]
    exact run_flatMap_mem w exec now _ (find_pending_nodup_ids s w.batch_size now h) rec hmem
  · rw [if_neg hmem]
    apply run_flatMap_not_mem
    intro f hf heq
    have hfs := (mem_find_pending s w.batch_size now f hf).1
    have : f = rec := List.inj_on_of_nodup_map h hfs hrec heq
    exact hmem (this ▸ hf)

/-- The table after one worker tick is the row-wise image of the tick's
operation sequence. -/
theorem worker_tick_map (w : WorkerSettings) (exec : Job → Except AppError JsonValue)
    (now : Nat) (s : Store) :
    worker_tick w exec now s = s.map (run_ops (tick_ops w exec now s)) := by
  rw [worker_tick_eq, apply_ops_eq_map]

/-- The operation sequence of one fetched row, run on that row itself:
skipped rows are untouched; otherwise the row goes through the started update
and then, by executor outcome, the completed update, nothing (the retry TODO),
or the failed update. -/
theorem run_job_ops (w : WorkerSettings) (exec : Job → Except AppError JsonValue)
    (now : Nat) (rec : Job) :
    run_ops (job_ops w exec now rec) rec =
      if should_process_job_type w rec.job_type then
        match exec rec with
        | .ok r => completed_update (some r) now (started_update now rec)
        | .error e =>
          if rec.retry_count < rec.max_retries then started_update now rec
          else failed_update (AppError.toMessage e) now (started_update now rec)
      else rec := by
  unfold job_ops
  by_cases hp : should_process_job_type w rec.job_type
  · rw [if_pos hp, if_pos hp]
    cases hexec : exec rec with
    | ok r =>
      show run_ops [StoreOp.opStarted rec.id now, StoreOp.opCompleted rec.id (some r) now] rec = _
      simp [run_ops, StoreOp.onRow, StoreOp.target, StoreOp.update, started_update]
    | error e =>
      show run_ops (StoreOp.opStarted rec.id now ::
          (if rec.retry_count < rec.max_retries then []
           else [StoreOp.opFailed rec.id (AppError.toMessage e) now])) rec =
        (if rec.retry_count < rec.max_retries then started_update now rec
         else failed_update (AppError.toMessage e) now (started_update now rec))
      by_cases hr : rec.retry_count < rec.max_retries
      · rw [if_pos hr, if_pos hr]
        simp [run_ops, StoreOp.onRow, StoreOp.target, StoreOp.update]
      · rw [if_neg hr, if_neg hr]
        simp [run_ops, StoreOp.onRow, StoreOp.target, StoreOp.update, started_update]
  · rw [if_neg hp, if_neg hp]
    rfl

/-! ## Claim C10 -/

theorem process_unknown (t : String) (p : JsonValue) (now : Nat)
    (h1 : t ≠ "send_email") (h2 : t ≠ "process_payment")
    (h3 : t ≠ "generate_report") (h4 : t ≠ "cleanup_data") :
    DefaultProcessor.process t p now = .error (.badRequest ("Unknown job type: " ++ t)) := by
  unfold DefaultProcessor.process
  split
  · exact absurd rfl h1
  · exact absurd rfl h2
  · exact absurd rfl h3
  · exact absurd rfl h4
  · rfl

/-- Claim C10: `DefaultProcessor::process` succeeds exactly for the four
built-in job types; every other type yields
`BadRequest("Unknown job type: <type>")`, which the executor passes through
unchanged (when no timeout occurs), so such a job reaches the worker loop's
failure branch instead of being rejected up front. -/
theorem claim_C10 (t : String) (p : JsonValue) (now : Nat) :
    ((∃ v, DefaultProcessor.process t p now = .ok v) ↔
      t = "send_email" ∨ t = "process_payment" ∨ t = "generate_report" ∨ t = "cleanup_data") ∧
    (t ≠ "send_email" → t ≠ "process_payment" → t ≠ "generate_report" → t ≠ "cleanup_data" →
      DefaultProcessor.process t p now = .error (.badRequest ("Unknown job type: " ++ t)) ∧
      execute false t p now = .error (.badRequest ("Unknown job type: " ++ t))) := by
  constructor
  · constructor
    · intro hv
      by_contra hne
      push_neg at hne
      rw [process_unknown t p now hne.1 hne.2.1 hne.2.2.1 hne.2.2.2] at hv
      exact absurd hv.choose_spec (by simp)
    · intro h
      rcases h with h | h | h | h <;> subst h <;> exact ⟨_, rfl⟩
  · intro h1 h2 h3 h4
    have hu := process_unknown t p now h1 h2 h3 h4
    exact ⟨hu, hu⟩

theorem claim_C10_witness :
    (∃ v, DefaultProcessor.process "send_email" JsonValue.null 7 = .ok v) ∧
    DefaultProcessor.process "mystery" JsonValue.null 7 =
      .error (.badRequest ("Unknown job type: " ++ "mystery")) :=
  ⟨(claim_C10 "send_email" JsonValue.null 7).1.2 (Or.inl rfl),
   ((claim_C10 "mystery" JsonValue.null 7).2 (by decide) (by decide) (by decide) (by decide)).1⟩

/-! ## Claim C7 -/

/-- Claim C7: a pool configured with job_types equal to the single entry
"send_email" never issues any store operation for a "process_payment" job
(the fetched row is skipped before mark_started, so it stays Pending);
a pool whose list contains the wildcard processes every type; a pool
without the wildcard processes exactly the types in its list. -/
theorem claim_C7 :
    (∀ w : WorkerSettings, w.job_types = ["send_email"] →
      ∀ (exec : Job → Except AppError JsonValue) (now : Nat) (j : Job),
        j.job_type = "process_payment" →
          should_process_job_type w j.job_type = false ∧
          job_ops w exec now j = [] ∧
          (∀ s : Store, process_job w exec now s j = s)) ∧
    (∀ (w : WorkerSettings) (t : String),
      "*" ∈ w.job_types → should_process_job_type w t = true) ∧
    (∀ (w : WorkerSettings) (t : String),
      "*" ∉ w.job_types → (should_process_job_type w t = true ↔ t ∈ w.job_types)) := by
  refine ⟨?_, ?_, ?_⟩
  · intro w hw exec now j hj
    have hsp : should_process_job_type w j.job_type = false := by
      unfold should_process_job_type
      rw [hw, hj]
      rfl
    refine ⟨hsp, ?_, ?_⟩
    · unfold job_ops
      rw [hsp]
      rfl
    · intro s
      unfold process_job job_ops
      rw [hsp]
      rfl
  · intro w t hstar
    unfold should_process_job_type
    simp only [List.contains_iff_exists_mem_beq, Bool.or_eq_true]
    exact Or.inl ⟨"*", hstar, beq_self_eq_true "*"⟩
  · intro w t hstar
    unfold should_process_job_type
    simp only [List.contains_iff_exists_mem_beq, Bool.or_eq_true]
    constructor
    · intro h
      rcases h with ⟨x, hx, hbeq⟩ | ⟨x, hx, hbeq⟩
      · exact absurd ((beq_iff_eq.1 hbeq) ▸ hx) hstar
      · exact (beq_iff_eq.1 hbeq) ▸ hx
    · intro h
      exact Or.inr ⟨t, h, beq_self_eq_true t⟩

theorem claim_C7_witness :
    job_ops { WorkerSettings.default with job_types := ["send_email"] }
        (exec_default 100) 100 (mkJob 1 1 "process_payment") = [] ∧
    should_process_job_type WorkerSettings.default "process_payment" = true ∧
    (should_process_job_type { WorkerSettings.default with job_types := ["send_email"] }
        "send_email" = true) :=
  ⟨(claim_C7.1 _ rfl (exec_default 100) 100 (mkJob 1 1 "process_payment") rfl).2.1,
   claim_C7.2.1 WorkerSettings.default "process_payment" (by decide),
   (claim_C7.2.2 _ "send_email" (by decide)).2 (by decide)⟩

/-! ## Claim C8 -/

/-- Claim C8 evaluation: the hourly cleanup tick of
`JobScheduler::spawn_cleanup_task` deletes nothing at all — its body is a
TODO that only logs — so a terminal job far older than the retention window
(cleanup_after_days, default 30) is still in the table after the tick. -/
theorem claim_C8 :
    (∀ s : Store, cleanup_tick s = s) ∧
    cleanup_tick [old_done_job] = [old_done_job] ∧
    old_done_job.status = JobStatus.completed ∧
    old_done_job.completed_at = some 0 :=
  ⟨fun _ => rfl, rfl, rfl, rfl⟩

/-! ## Claim C9 -/

theorem validate_ok (cron_parse : String → Option String) (w : WorkerSettings) :
    validate (.ok ()) cron_parse w =
      if w.worker_threads = 0 then .error "Worker threads cannot be zero"
      else if w.batch_size = 0 then .error "Batch size cannot be zero"
      else if w.job_timeout = 0 then .error "Job timeout cannot be zero"
      else if w.poll_interval = 0 then .error "Poll interval cannot be zero"
      else validate_cron_jobs cron_parse w.scheduler.cron_jobs := rfl

/-- Counterexample to claim C9 as stated: `WorkerConfig::validate` does reject
this configuration, but the worker-service startup path
(main.rs: AppConfig::validate, then JobScheduler::new / start) never invokes
`WorkerConfig::validate`, so the startup with these settings succeeds and
reaches the worker-spawning phase without surfacing any configuration error. -/
theorem claim_C9_counterexample :
    validate (.ok ()) (fun _ => none) zero_threads_settings =
      .error "Worker threads cannot be zero" ∧
    main_startup (.ok ()) 0 ["*"] = .ok 0 :=
  ⟨rfl, rfl⟩

/-- Claim C9, amended: given a valid base app config and valid enabled cron
expressions, `WorkerConfig::validate` returns an error exactly when
worker_threads, batch_size, job_timeout or poll_interval is zero; however the
startup path never calls `WorkerConfig::validate`, so such an error is not
surfaced before workers are spawned. -/
theorem claim_C9 (w : WorkerSettings) (cron_parse : String → Option String)
    (hcron : validate_cron_jobs cron_parse w.scheduler.cron_jobs = .ok ()) :
    ((∃ e, validate (.ok ()) cron_parse w = .error e) ↔
      (w.worker_threads = 0 ∨ w.batch_size = 0 ∨ w.job_timeout = 0 ∨ w.poll_interval = 0)) ∧
    (∀ job_types : List String,
      main_startup (.ok ()) w.worker_threads job_types = .ok w.worker_threads) := by
  constructor
  · constructor
    · rintro ⟨e, he⟩
      by_contra hall
      push_neg at hall
      obtain ⟨h1, h2, h3, h4⟩ := hall
      rw [validate_ok, if_neg h1, if_neg h2, if_neg h3, if_neg h4, hcron] at he
      cases he
    · intro h
      rw [validate_ok]
      by_cases h1 : w.worker_threads = 0
      · rw [if_pos h1]; exact ⟨_, rfl⟩
      rw [if_neg h1]
      by_cases h2 : w.batch_size = 0
      · rw [if_pos h2]; exact ⟨_, rfl⟩
      rw [if_neg h2]
      by_cases h3 : w.job_timeout = 0
      · rw [if_pos h3]; exact ⟨_, rfl⟩
      rw [if_neg h3]
      by_cases h4 : w.poll_interval = 0
      · rw [if_pos h4]; exact ⟨_, rfl⟩
      rcases h with h | h | h | h
      · exact absurd h h1
      · exact absurd h h2
      · exact absurd h h3
      · exact absurd h h4
  · intro job_types
    rfl

theorem claim_C9_witness :
    ((∃ e, validate (.ok ()) (fun _ => none) zero_threads_settings = .error e) ↔
      (zero_threads_settings.worker_threads = 0 ∨ zero_threads_settings.batch_size = 0 ∨
       zero_threads_settings.job_timeout = 0 ∨ zero_threads_settings.poll_interval = 0)) ∧
    (∀ job_types : List String,
      main_startup (.ok ()) zero_threads_settings.worker_threads job_types =
        .ok zero_threads_settings.worker_threads) :=
  claim_C9 zero_threads_settings (fun _ => none) rfl

/-! ## Claim C5 -/

/-- Counterexample to claim C5 as stated: `find_pending` is a pure SELECT, so
after a first call returning the ten oldest-created jobs the table is
unchanged and a second call returns the same ten jobs again — not the
remaining five. -/
theorem claim_C5_counterexample :
    (find_pending_op jobs15 10 100).2 = jobs15 ∧
    find_pending ((find_pending_op jobs15 10 100).2) 10 100 = first_ten ∧
    first_ten ≠ last_five := by
  refine ⟨rfl, by decide, by decide⟩

/-- Claim C5, amended: the pending query returns only Pending rows whose
scheduled_at is at or before now, at most batch_size of them, ordered
oldest-created-first; with 15 eligible jobs and batch_size 10 it returns the
10 oldest-created, and it returns the remaining 5 on a later call only once
the first batch is no longer Pending (here: after the worker marked it
started); a job scheduled in the future is excluded until now reaches its
scheduled_at.  Consecutive calls on an unchanged table repeat the same
batch, since the query does not claim. -/
theorem claim_C5 :
    (∀ (s : Store) (limit now : Nat) (j : Job), j ∈ find_pending s limit now →
      j ∈ s ∧ j.status = JobStatus.pending ∧ j.scheduled_at ≤ now) ∧
    (∀ (s : Store) (limit now : Nat), (find_pending s limit now).length ≤ limit) ∧
    (∀ (s : Store) (limit now : Nat), (find_pending s limit now).Sorted createdLe) ∧
    find_pending jobs15 10 100 = first_ten ∧
    find_pending after_first_batch 10 100 = last_five ∧
    find_pending [future_job] 10 100 = [] ∧
    find_pending [future_job] 10 200 = [future_job] := by
  refine ⟨mem_find_pending, find_pending_length, find_pending_sorted,
    by decide, by decide, by decide, by decide⟩

theorem claim_C5_witness :
    batch_job 1 ∈ jobs15 ∧ (batch_job 1).status = JobStatus.pending ∧
    (batch_job 1).scheduled_at ≤ 100 :=
  (claim_C5.1 jobs15 10 100 (batch_job 1) (by decide))

/-! ## Claim C3 -/

/-- Counterexample to claim C3 as stated: the one store operation that selects
and returns the batch (`find_pending`) leaves the table unchanged — the
returned job is still Pending with no started_at in the post-state of that
operation, so selection does not mark jobs Running. -/
theorem claim_C3_counterexample :
    (find_pending_op [pending_one] 10 100).1 = [pending_one] ∧
    (find_pending_op [pending_one] 10 100).2 = [pending_one] ∧
    pending_one.status = JobStatus.pending ∧
    pending_one.started_at = none ∧
    pending_one.status ≠ JobStatus.running := by
  refine ⟨by decide, rfl, rfl, rfl, by decide⟩

/-- Claim C3, amended: claiming is not a single atomic operation.
`find_pending` only selects eligible Pending rows and leaves the table
unchanged; the worker then marks each processed job Running with started_at
via a separate `mark_started` call, which is the first store operation it
issues for a job it processes. -/
theorem claim_C3 :
    (∀ (s : Store) (limit now : Nat), (find_pending_op s limit now).2 = s) ∧
    (∀ (s : Store) (limit now : Nat) (j : Job),
      j ∈ find_pending s limit now → j.status = JobStatus.pending) ∧
    (∀ (i now : Nat) (s : Store) (rec : Job),
      rec ∈ mark_started i now s → rec.id = i →
        rec.status = JobStatus.running ∧ rec.started_at = some now) ∧
    (∀ (w : WorkerSettings) (exec : Job → Except AppError JsonValue) (now : Nat) (j : Job),
      should_process_job_type w j.job_type = true →
        (job_ops w exec now j).head? = some (StoreOp.opStarted j.id now)) := by
  refine ⟨fun _ _ _ => rfl, ?_, ?_, ?_⟩
  · intro s limit now j hj
    exact (mem_find_pending s limit now j hj).2.1
  · intro i now s rec hrec hid
    unfold mark_started set_job at hrec
    rcases List.mem_map.1 hrec with ⟨j, hj, heq⟩
    by_cases h : j.id = i
    · rw [if_pos h] at heq
      subst heq
      exact ⟨rfl, rfl⟩
    · rw [if_neg h] at heq
      subst heq
      exact absurd hid h
  · intro w exec now j hp
    unfold job_ops
    rw [hp]
    rfl

theorem claim_C3_witness :
    (find_pending_op [pending_one] 5 100).2 = [pending_one] ∧
    (started_update 100 pending_one).status = JobStatus.running ∧
    (started_update 100 pending_one).started_at = some 100 ∧
    (job_ops WorkerSettings.default (exec_default 100) 100 pending_one).head? =
      some (StoreOp.opStarted pending_one.id 100) :=
  ⟨claim_C3.1 [pending_one] 5 100,
   (claim_C3.2.2.1 1 100 [pending_one] (started_update 100 pending_one) (by decide) rfl).1,
   (claim_C3.2.2.1 1 100 [pending_one] (started_update 100 pending_one) (by decide) rfl).2,
   claim_C3.2.2.2 WorkerSettings.default (exec_default 100) 100 pending_one (by decide)⟩

/-! ## Claim C1 -/

/-- Claim C1 evaluation at the failing input: the executor outcome for
`stuck_job` is a Failure and retry_count < max_retries, yet the worker tick
performs no retry transition — the job is left Running with retry_count
still 0, no error recorded, scheduled_at unchanged and status not reset to
Pending (the retry write is a TODO in `spawn_worker`). -/
theorem claim_C1 :
    exec_default 100 stuck_job =
      .error (.badRequest ("Unknown job type: " ++ "no_such_type")) ∧
    stuck_job.retry_count < stuck_job.max_retries ∧
    worker_tick WorkerSettings.default (exec_default 100) 100 [stuck_job] = [stuck_after] ∧
    stuck_after.status = JobStatus.running ∧
    stuck_after.retry_count = 0 ∧
    stuck_after.error = none ∧
    stuck_after.scheduled_at = stuck_job.scheduled_at ∧
    stuck_after.status ≠ JobStatus.pending := by
  refine ⟨rfl, by decide, by decide, rfl, rfl, rfl, rfl, by decide⟩

/-! ## Claim C6 -/

/-- Claim C6 evaluation at the failing input: a timed-out job is handled by
the same Err branch as a processor failure (identical operation sequences
here), but since the retry branch is a TODO, with retry_count < max_retries
the job is marked started and then never written again: it stays Running
after the tick and after every number of further ticks — left permanently
Running, contradicting the claim. -/
theorem claim_C6 :
    exec_timeout 100 timeout_job = .error (.internal "Job execution timed out") ∧
    job_ops WorkerSettings.default (exec_timeout 100) 100 timeout_job =
      job_ops WorkerSettings.default (fun _ => .error (.badRequest "handler failed")) 100
        timeout_job ∧
    worker_tick WorkerSettings.default (exec_timeout 100) 100 [timeout_job] =
      [timeout_after] ∧
    timeout_after.status = JobStatus.running ∧
    (∀ n : Nat,
      (fun s => worker_tick WorkerSettings.default (exec_timeout 100) 100 s)^[n]
        [timeout_after] = [timeout_after]) := by
  refine ⟨rfl, by decide, by decide, rfl, ?_⟩
  intro n
  exact Function.iterate_fixed (by decide) n

/-! ## Claim C2 -/

/-- Counterexample to claim C2 as stated: when a job fails with
retry_count = max_retries, `mark_failed` increments retry_count while marking
the job failed, so afterwards retry_count = max_retries + 1 — the invariant
retry_count ≤ max_retries does not hold at every point. -/
theorem claim_C2_counterexample :
    worker_tick WorkerSettings.default (exec_default 100) 100 [last_try_job] =
      [last_try_after] ∧
    last_try_after.retry_count = 1 ∧
    last_try_after.max_retries = 0 ∧
    ¬ last_try_after.retry_count ≤ last_try_after.max_retries := by
  refine ⟨by decide, rfl, rfl, by decide⟩

/-- Claim C2, amended: with unique row ids, one worker tick preserves the
invariant that non-failed rows have retry_count ≤ max_retries and failed rows
have retry_count ≤ max_retries + 1 (the final `mark_failed` counts once more);
and a terminally Failed row is never returned by the pending query and is not
touched by the tick's operations — it stays Failed and is never executed
again. -/
theorem claim_C2 (w : WorkerSettings) (exec : Job → Except AppError JsonValue)
    (now : Nat) (s : Store) (hids : (s.map Job.id).Nodup) (hinv : RetryInv s) :
    RetryInv (worker_tick w exec now s) ∧
    (∀ j ∈ s, j.status = JobStatus.failed →
      j ∉ find_pending s w.batch_size now ∧
      run_ops (tick_ops w exec now s) j = j) := by
  constructor
  · intro j2 hj2
    rw [worker_tick_map] at hj2
    rcases List.mem_map.1 hj2 with ⟨rec, hrec, heq⟩
    subst heq
    rw [tick_record w exec now s hids rec hrec]
    by_cases hmem : rec ∈ find_pending s w.batch_size now
    · rw [if_pos hmem, run_job_ops]
      have hpend := (mem_find_pending s w.batch_size now rec hmem).2.1
      have hle : rec.retry_count ≤ rec.max_retries := by
        apply (hinv rec hrec).2
        rw [hpend]
        decide
      by_cases hp : should_process_job_type w rec.job_type
      · rw [if_pos hp]
        cases hexec : exec rec with
        | ok r =>
          constructor
          · intro hst
            simp [completed_update, started_update] at hst
          · intro _
            simpa [completed_update, started_update] using hle
        | error e =>
          dsimp only
          by_cases hr : rec.retry_count < rec.max_retries
          · rw [if_pos hr]
            constructor
            · intro hst
              simp [started_update] at hst
            · intro _
              simpa [started_update] using hle
          · rw [if_neg hr]
            constructor
            · intro _
              simpa [failed_update, started_update] using add_le_add_right hle 1
            · intro hne
              simp [failed_update, started_update] at hne
      · rw [if_neg hp]
        exact hinv rec hrec
    · rw [if_neg hmem]
      exact hinv rec hrec
  · intro j hj hfail
    have hnot : j ∉ find_pending s w.batch_size now := by
      intro hmem
      have hpend := (mem_find_pending s w.batch_size now j hmem).2.1
      rw [hfail] at hpend
      exact absurd hpend (by decide)
    refine ⟨hnot, ?_⟩
    rw [tick_record w exec now s hids j hj, if_neg hnot]

theorem claim_C2_witness :
    RetryInv (worker_tick WorkerSettings.default (exec_default 100) 100 [last_try_job]) ∧
    (∀ j ∈ [last_try_after], j.status = JobStatus.failed →
      j ∉ find_pending [last_try_after] WorkerSettings.default.batch_size 100 ∧
      run_ops (tick_ops WorkerSettings.default (exec_default 100) 100 [last_try_after]) j
        = j) :=
  ⟨(claim_C2 WorkerSettings.default (exec_default 100) 100 [last_try_job]
      (by decide) (by decide)).1,
   (claim_C2 WorkerSettings.default (exec_default 100) 100 [last_try_after]
      (by decide) (by decide)).2⟩

/-! ## Claim C4 -/

theorem op_respects_of_forall (s : Store) (op : StoreOp)
    (h : ∀ j ∈ s, (op.onRow j).status = j.status ∨
      ok_edge j.status (op.onRow j).status = true) :
    op_respects s op = true := by
  rw [op_respects, List.all_eq_true]
  intro j hj
  rcases h j hj with hcase | hcase
  · rw [beq_iff_eq.2 hcase, Bool.true_or]
  · rw [hcase, Bool.or_true]

theorem trace_respects_append : ∀ (a b : List StoreOp) (s : Store),
    trace_respects s (a ++ b) =
      (trace_respects s a && trace_respects (apply_ops s a) b) := by
  intro a
  induction a with
  | nil =>
    intro b s
    simp [trace_respects, apply_ops]
  | cons op a ih =>
    intro b s
    show (op_respects s op && trace_respects (op.apply s) (a ++ b)) =
      ((op_respects s op && trace_respects (op.apply s) a) &&
        trace_respects (apply_ops (op.apply s) a) b)
    rw [ih b (op.apply s), Bool.and_assoc]

theorem ids_status_apply (op : StoreOp) (s : Store) (i : Nat) (st : JobStatus)
    (hne : i ≠ op.target) (h : ids_status i st s) : ids_status i st (op.apply s) := by
  intro rec hrec hid
  rcases List.mem_map.1 hrec with ⟨j, hj, heq⟩
  subst heq
  have hjid : j.id = i := by rw [← StoreOp.onRow_id op j]; exact hid
  rw [onRow_not_target op j (fun he => hne (hjid ▸ he.symm))]
  exact h j hj hjid

theorem ids_status_apply_ops (ops : List StoreOp) : ∀ (s : Store) (i : Nat) (st : JobStatus),
    (∀ op ∈ ops, i ≠ op.target) → ids_status i st s → ids_status i st (apply_ops s ops) := by
  induction ops with
  | nil => intro s i st _ h; exact h
  | cons op rest ih =>
    intro s i st hne h
    show ids_status i st (apply_ops (op.apply s) rest)
    exact ih (op.apply s) i st (fun o ho => hne o (List.mem_cons_of_mem _ ho))
      (ids_status_apply op s i st (hne op (List.mem_cons_self op rest)) h)

theorem onRow_match (op : StoreOp) (j : Job) (h : j.id = op.target) :
    op.onRow j = op.update j := by
  unfold StoreOp.onRow
  rw [if_pos h]

theorem op_respects_started (s : Store) (i now : Nat)
    (h : ids_status i JobStatus.pending s) :
    op_respects s (StoreOp.opStarted i now) = true := by
  apply op_respects_of_forall
  intro j hj
  by_cases hid : j.id = i
  · right
    have hjp := h j hj hid
    rw [onRow_match _ j (show j.id = (StoreOp.opStarted i now).target from hid), hjp]
    rfl
  · left
    rw [onRow_not_target (StoreOp.opStarted i now) j
      (fun he => hid (show j.id = i from he.symm))]

theorem apply_started_ids (s : Store) (i now : Nat) :
    ids_status i JobStatus.running ((StoreOp.opStarted i now).apply s) := by
  intro rec hrec hid
  rcases List.mem_map.1 hrec with ⟨j, hj, heq⟩
  subst heq
  have hjid : j.id = i := by
    rw [← StoreOp.onRow_id (StoreOp.opStarted i now) j]
    exact hid
  rw [onRow_match _ j (show j.id = (StoreOp.opStarted i now).target from hjid)]
  rfl

theorem op_respects_completed (s : Store) (i now : Nat) (r : Option JsonValue)
    (h : ids_status i JobStatus.running s) :
    op_respects s (StoreOp.opCompleted i r now) = true := by
  apply op_respects_of_forall
  intro j hj
  by_cases hid : j.id = i
  · right
    have hjp := h j hj hid
    rw [onRow_match _ j (show j.id = (StoreOp.opCompleted i r now).target from hid), hjp]
    rfl
  · left
    rw [onRow_not_target (StoreOp.opCompleted i r now) j
      (fun he => hid (show j.id = i from he.symm))]

theorem op_respects_failed (s : Store) (i now : Nat) (e : String)
    (h : ids_status i JobStatus.running s) :
    op_respects s (StoreOp.opFailed i e now) = true := by
  apply op_respects_of_forall
  intro j hj
  by_cases hid : j.id = i
  · right
    have hjp := h j hj hid
    rw [onRow_match _ j (show j.id = (StoreOp.opFailed i e now).target from hid), hjp]
    rfl
  · left
    rw [onRow_not_target (StoreOp.opFailed i e now) j
      (fun he => hid (show j.id = i from he.symm))]

theorem job_trace (w : WorkerSettings) (exec : Job → Except AppError JsonValue)
    (now : Nat) (f : Job) (s : Store) (h : ids_status f.id JobStatus.pending s) :
    trace_respects s (job_ops w exec now f) = true := by
  unfold job_ops
  by_cases hp : should_process_job_type w f.job_type
  · rw [if_pos hp]
    have hrun : ids_status f.id JobStatus.running
        ((StoreOp.opStarted f.id now).apply s) := apply_started_ids s f.id now
    cases hexec : exec f with
    | ok r =>
      show (op_respects s (StoreOp.opStarted f.id now) &&
        (op_respects ((StoreOp.opStarted f.id now).apply s)
            (StoreOp.opCompleted f.id (some r) now) && true)) = true
      rw [op_respects_started s f.id now h, op_respects_completed _ f.id now (some r) hrun]
      rfl
    | error e =>
      by_cases hr : f.retry_count < f.max_retries
      · show trace_respects s (StoreOp.opStarted f.id now ::
          (if f.retry_count < f.max_retries then []
           else [StoreOp.opFailed f.id (AppError.toMessage e) now])) = true
        rw [if_pos hr]
        show (op_respects s (StoreOp.opStarted f.id now) && true) = true
        rw [op_respects_started s f.id now h]
        rfl
      · show trace_respects s (StoreOp.opStarted f.id now ::
          (if f.retry_count < f.max_retries then []
           else [StoreOp.opFailed f.id (AppError.toMessage e) now])) = true
        rw [if_neg hr]
        show (op_respects s (StoreOp.opStarted f.id now) &&
          (op_respects ((StoreOp.opStarted f.id now).apply s)
              (StoreOp.opFailed f.id (AppError.toMessage e) now) && true)) = true
        rw [op_respects_started s f.id now h,
          op_respects_failed _ f.id now (AppError.toMessage e) hrun]
        rfl
  · rw [if_neg hp]
    rfl

theorem trace_flatMap (w : WorkerSettings) (exec : Job → Except AppError JsonValue)
    (now : Nat) : ∀ (L : List Job) (s : Store),
    (L.map Job.id).Nodup →
    (∀ f ∈ L, ids_status f.id JobStatus.pending s) →
    trace_respects s (L.flatMap (job_ops w exec now)) = true := by
  intro L
  induction L with
  | nil => intro s _ _; rfl
  | cons f L2 ih =>
    intro s hnd hall
    have hnd2 : (L2.map Job.id).Nodup := (List.nodup_cons.1 hnd).2
    have hfid : f.id ∉ L2.map Job.id := (List.nodup_cons.1 hnd).1
    rw [List.flatMap_cons, trace_respects_append]
    have h1 : trace_respects s (job_ops w exec now f) = true :=
      job_trace w exec now f s (hall f (List.mem_cons_self f L2))
    have h2 : trace_respects (apply_ops s (job_ops w exec now f))
        (L2.flatMap (job_ops w exec now)) = true := by
      apply ih _ hnd2
      intro f2 hf2
      apply ids_status_apply_ops
      · intro op hop
        rw [job_ops_target w exec now f op hop]
        intro he
        exact hfid (he ▸ List.mem_map_of_mem Job.id hf2)
      · exact hall f2 (List.mem_cons_of_mem f hf2)
    rw [h1, h2]
    rfl

/-- Claim C4, amended: on a table with unique row ids, the operation sequence
issued by one sequential worker tick respects the §4.3 state machine at every
step — each operation either leaves a row's status unchanged or moves it along
an allowed edge.  (The repository operations themselves are unconditional
UPDATEs, so this discipline is the caller's; with two concurrent workers and
the non-atomic claim it can be violated, see the counterexample.) -/
theorem claim_C4 (w : WorkerSettings) (exec : Job → Except AppError JsonValue)
    (now : Nat) (s : Store) (hids : (s.map Job.id).Nodup) :
    trace_respects s (tick_ops w exec now s) = true := by
  unfold tick_ops
  apply trace_flatMap w exec now _ s (find_pending_nodup_ids s w.batch_size now hids)
  intro f hf rec hrec hid
  have hf2 := mem_find_pending s w.batch_size now f hf
  have : rec = f := List.inj_on_of_nodup_map hids hrec hf2.1 hid
  rw [this]
  exact hf2.2.1

theorem claim_C4_witness :
    trace_respects [pending_one]
      (tick_ops WorkerSettings.default (exec_default 100) 100 [pending_one]) = true :=
  claim_C4 WorkerSettings.default (exec_default 100) 100 [pending_one] (by decide)

/-- Counterexample to claim C4 as stated: two worker loops that both fetched
the same Pending job (the claim is not atomic: `find_pending` does not mark)
issue the tick operation sequence twice.  After the first worker completes the
job, the stale second worker's `mark_started` moves the row from terminal
Completed back to Running — not a §4.3 edge — so the interleaved scheduler-core
operation sequence violates the state machine. -/
theorem claim_C4_counterexample :
    tick_ops WorkerSettings.default (exec_default 100) 100 [pending_one] =
      [StoreOp.opStarted 1 100,
       StoreOp.opCompleted 1 (some (JsonValue.obj2 "status" (JsonValue.str "sent")
         "timestamp" (JsonValue.num 100))) 100] ∧
    apply_ops [pending_one]
      (tick_ops WorkerSettings.default (exec_default 100) 100 [pending_one]) = [c4_done] ∧
    c4_done.status = JobStatus.completed ∧
    (StoreOp.opStarted 1 100).apply [c4_done] = [c4_rerun] ∧
    c4_rerun.status = JobStatus.running ∧
    ok_edge JobStatus.completed JobStatus.running = false ∧
    trace_respects [pending_one]
      (tick_ops WorkerSettings.default (exec_default 100) 100 [pending_one] ++
       tick_ops WorkerSettings.default (exec_default 100) 100 [pending_one]) = false := by
  refine ⟨by decide, by decide, rfl, by decide, rfl, rfl, by decide⟩

end JobWorker
